import Mathlib

/-!
Shallow embedding of the trading core of the repository (src/core/trading_engine.py,
src/api/exchange_client.py, src/utils/helpers.py).

Modelling conventions:
- Python float/decimal arithmetic is idealized as exact rational arithmetic (ℚ).
- Python dicts holding typed records (position, signal, config) become structures;
  keys that are only logged (symbol, timestamp, messages) are dropped.
- The free-text rationale string is abstracted by the booleans that the code
  derives from it: one flag per keyword membership test that the source performs
  (`强势/突破/明确/明显`, `反转/改变/转向`, and the confirmation set `突破/反转/确认`).
  Every combination of flags is realizable by some rationale text, and the code
  depends on the text only through these membership tests.
- Network calls are parameterized by oracles: a call attempt either raises
  (modelled as `none`) or returns the parsed `data` payload (`some`).
- Confidence strings other than HIGH/MEDIUM/LOW hit the dict-lookup defaults
  (0.7 multiplier, 0.5 base strength); they are collapsed into one `OTHER` case.
-/

/-- Position side as the exchange reports it (`'long'` / `'short'`). -/
inductive Side
  | long
  | short
  deriving DecidableEq

/-- Advisory signal direction (`'BUY'` / `'SELL'` / `'HOLD'`). -/
inductive TrSignal
  | BUY
  | SELL
  | HOLD
  deriving DecidableEq

/-- Signal confidence label; `OTHER` stands for any string besides the three
named labels (those all share the source's dict-lookup default behaviour). -/
inductive Confidence
  | HIGH
  | MEDIUM
  | LOW
  | OTHER
  deriving DecidableEq

/-- Boolean abstraction of the rationale text: one flag per substring test the
source performs on `signal_data['reason']`. -/
structure Reason where
  kw_strong : Bool
  kw_breakout : Bool
  kw_clear : Bool
  kw_obvious : Bool
  kw_reversal : Bool
  kw_change : Bool
  kw_turn : Bool
  kw_confirm : Bool
  deriving DecidableEq

/-- The fields of `signal_data` that the trading core reads. -/
structure SignalData where
  signal : TrSignal
  confidence : Confidence
  reason : Reason
  deriving DecidableEq

/-- The fields of the exchange position dict that the core reads. -/
structure Position where
  side : Side
  size : ℚ
  entry_price : ℚ
  unrealized_pnl : ℚ
  deriving DecidableEq

/-- The numeric trade-config entries the core reads (symbol and margin mode are
only logged or passed through and are dropped). -/
structure TradeConfig where
  risk_percent : ℚ
  leverage : ℚ
  min_order_size : ℚ
  max_order_size : ℚ
  max_position_size : ℚ
  max_loss_percent : ℚ
  target_profit_percent : ℚ
  deriving DecidableEq

/-- Confidence multiplier dict of `calculate_position_size`
(`{'HIGH': 1.0, 'MEDIUM': 0.7, 'LOW': 0.5}.get(confidence, 0.7)`). -/
def confidence_multiplier : Confidence → ℚ
  | Confidence.HIGH => 1
  | Confidence.MEDIUM => 7/10
  | Confidence.LOW => 1/2
  | Confidence.OTHER => 7/10

/-- Base strength dict of `_calculate_trend_strength`
(`{'HIGH': 0.8, 'MEDIUM': 0.5, 'LOW': 0.3}.get(confidence, 0.5)`). -/
def base_strength : Confidence → ℚ
  | Confidence.HIGH => 4/5
  | Confidence.MEDIUM => 1/2
  | Confidence.LOW => 3/10
  | Confidence.OTHER => 1/2

/-- Test `any(keyword in reason for keyword in ['强势', '突破', '明确', '明显'])`. -/
def strength_kw (r : Reason) : Bool :=
  r.kw_strong || r.kw_breakout || r.kw_clear || r.kw_obvious

/-- Test `any(keyword in reason for keyword in ['反转', '改变', '转向'])`. -/
def reversal_kw (r : Reason) : Bool :=
  r.kw_reversal || r.kw_change || r.kw_turn

/-- Test `any(keyword in reason for keyword in ['突破', '反转', '确认'])`
used by `check_signal_reversal` for MEDIUM-confidence confirmation. -/
def confirm_kw (r : Reason) : Bool :=
  r.kw_breakout || r.kw_reversal || r.kw_confirm

/-- Embedding of `TradingEngine._calculate_trend_strength`.  Python's
`min(total, 1.0)` is written as an explicit conditional. -/
def calculate_trend_strength (sig : SignalData) : ℚ :=
  let bs := base_strength sig.confidence
  let boost : ℚ :=
    (if strength_kw sig.reason then 1/5 else 0) +
    (if reversal_kw sig.reason then 1/10 else 0)
  if bs + boost ≤ 1 then bs + boost else 1

/-- Round-half-to-even to an integer, the tie rule of Python's `round`. -/
def roundHalfEven (x : ℚ) : ℤ :=
  if Int.fract x < 1/2 then ⌊x⌋
  else if 1/2 < Int.fract x then ⌊x⌋ + 1
  else if ⌊x⌋ % 2 = 0 then ⌊x⌋ else ⌊x⌋ + 1

/-- Embedding of Python's `round(x, 4)` on the idealized decimal values. -/
def round4 (x : ℚ) : ℚ :=
  (roundHalfEven (x * 10000) : ℚ) / 10000

/-- The `signal_side` local of `calculate_position_size`:
`'long' if signal == 'BUY' else 'short' if signal == 'SELL' else None`. -/
def signal_side : TrSignal → Option Side
  | TrSignal.BUY => some Side.long
  | TrSignal.SELL => some Side.short
  | TrSignal.HOLD => none

/-- The position-independent part of `TradingEngine.calculate_position_size`
(source lines 113-142): base size from equity, confidence multiplier, lower
clamp to `min_order_size`, trend multiplier, upper clamp to `max_order_size`,
rounding to 4 decimals. -/
def sizer_unclamped (cfg : TradeConfig) (equity price : ℚ) (sig : SignalData) : ℚ :=
  let base_size := equity * cfg.risk_percent / 100 * cfg.leverage / price
  let adjusted_size := base_size * confidence_multiplier sig.confidence
  let adjusted_size' :=
    if adjusted_size < cfg.min_order_size then cfg.min_order_size else adjusted_size
  let trend_strength := calculate_trend_strength sig
  let trend_multiplier := 4/5 + trend_strength * (2/5)
  let final_size := adjusted_size' * trend_multiplier
  let final_size' :=
    if cfg.max_order_size < final_size then cfg.max_order_size else final_size
  round4 final_size'

/-- The scale-in branch of `TradingEngine.calculate_position_size` (source
lines 144-161): a same-direction signal on a live position caps the combined
size at `max_position_size`, returning 0 when the cap is already met. -/
def position_adjust (cfg : TradeConfig) (final_size'' : ℚ) (sig : SignalData) :
    Option Position → ℚ
  | some p =>
      if 0 < p.size ∧ signal_side sig.signal = some p.side then
        if cfg.max_position_size < p.size + final_size'' then
          if cfg.max_position_size - p.size ≤ 0 then 0
          else cfg.max_position_size - p.size
        else final_size''
      else final_size''
  | none => final_size''

/-- Embedding of `TradingEngine.calculate_position_size`.  `equity` stands for
the value `float(balance.get('totalEq', 0)) if balance else 0` and `price` for
`self.exchange.get_market_price()`; both exchange reads are pulled out as
parameters.  The `except` branch of the source (returning `min_order_size`)
is unreachable in the pure embedding and is not modelled. -/
def calculate_position_size (cfg : TradeConfig) (equity price : ℚ)
    (sig : SignalData) (pos : Option Position) : ℚ :=
  if equity ≤ 0 then 0
  else if price ≤ 0 then 0
  else position_adjust cfg (sizer_unclamped cfg equity price sig) sig pos

/-- Embedding of `TradingEngine.check_signal_reversal`. -/
def check_signal_reversal (cfg : TradeConfig) (new_signal : SignalData)
    (pos : Option Position) : Bool :=
  match pos with
  | none => false
  | some p =>
      if p.size = 0 then false
      else if (p.side = Side.long ∧ new_signal.signal = TrSignal.SELL) ∨
              (p.side = Side.short ∧ new_signal.signal = TrSignal.BUY) then
        let pnl_percent := p.unrealized_pnl / (p.size * p.entry_price) * 100
        if pnl_percent < -cfg.max_loss_percent then true
        else if cfg.target_profit_percent < pnl_percent then true
        else if new_signal.confidence = Confidence.HIGH then true
        else if new_signal.confidence = Confidence.MEDIUM then confirm_kw new_signal.reason
        else false
      else false

/-- Market or limit order (`ord_type` strings of the source). -/
inductive OrdType
  | market
  | limit
  deriving DecidableEq

/-- Order direction strings `'buy'` / `'sell'`. -/
inductive OrderSide
  | buy
  | sell
  deriving DecidableEq

/-- An order request as `OKXClient.place_order` submits it (instrument and
`posSide` are fixed per client and dropped). -/
structure OrderReq where
  side : OrderSide
  size : ℚ
  ord_type : OrdType
  deriving DecidableEq

/-- Action tags of trade records: the strings `'open'`, `'add'`, `'reversal'`
of the source (`open` is a Lean keyword, hence `openNew`). -/
inductive TradeAction
  | openNew
  | add
  | reversal
  deriving DecidableEq

/-- One entry of `trade_history` (`TradingEngine._record_trade`); the
timestamp and symbol fields are only formatted for display and are dropped. -/
structure TradeRecord where
  side : TrSignal
  size : ℚ
  order_type : OrdType
  action : TradeAction
  deriving DecidableEq

/-- The mutable history state of a `TradingEngine`. -/
structure EngineState where
  trade_history : List TradeRecord
  signal_history : List SignalData
  deriving DecidableEq

/-- Embedding of `TradingEngine._record_trade`: append the record, then keep
only the 1000 most recent entries (`self.trade_history[-1000:]`). -/
def record_trade (st : EngineState) (side : TrSignal) (size : ℚ)
    (order_type : OrdType) (action : TradeAction) : EngineState :=
  let th := st.trade_history ++ [⟨side, size, order_type, action⟩]
  { st with trade_history := if 1000 < th.length then th.drop (th.length - 1000) else th }

/-- The exchange-visible inputs of one trading cycle: what
`get_current_position`, `get_balance`, `get_market_price` return, and the
outcomes of the at most one `close_position` and one `place_order` call the
cycle makes.  `none` models a call that failed (returned falsy). -/
structure ExchangeEnv where
  position : Option Position
  equity : ℚ
  price : ℚ
  close_result : Option Nat
  place_result : Option Nat

/-- Terminal outcome of one cycle (`result['status']` with `order_id` and
`action`; the free-text `message` values are dropped).  The `'error'` status
arises only from a raised exception, which the pure embedding has none of. -/
inductive TradeOutcome
  | hold
  | success (order_id : Nat) (action : TradeAction)
  | ignored
  | failed
  deriving DecidableEq

/-- Embedding of `TradingEngine._execute_buy_signal`.  The returned list holds
the order requests the engine itself passed to `exchange.place_order`
(the close request inside `exchange.close_position` is the exchange
collaborator's and is represented by `env.close_result`). -/
def execute_buy_signal (env : ExchangeEnv) (st : EngineState)
    (pos : Option Position) (position_size : ℚ) (reversal_needed : Bool) :
    TradeOutcome × EngineState × List OrderReq :=
  if reversal_needed && pos.isSome then
    match env.close_result with
    | none => (TradeOutcome.failed, st, [])
    | some _ =>
        match env.place_result with
        | some oid =>
            (TradeOutcome.success oid TradeAction.reversal,
             record_trade st TrSignal.BUY position_size OrdType.market TradeAction.reversal,
             [⟨OrderSide.buy, position_size, OrdType.market⟩])
        | none => (TradeOutcome.failed, st, [⟨OrderSide.buy, position_size, OrdType.market⟩])
  else
    match pos with
    | some p =>
        if p.side = Side.long then
          match env.place_result with
          | some oid =>
              (TradeOutcome.success oid TradeAction.add,
               record_trade st TrSignal.BUY position_size OrdType.market TradeAction.add,
               [⟨OrderSide.buy, position_size, OrdType.market⟩])
          | none => (TradeOutcome.failed, st, [⟨OrderSide.buy, position_size, OrdType.market⟩])
        else
          (TradeOutcome.ignored, st, [])
    | none =>
        match env.place_result with
        | some oid =>
            (TradeOutcome.success oid TradeAction.openNew,
             record_trade st TrSignal.BUY position_size OrdType.market TradeAction.openNew,
             [⟨OrderSide.buy, position_size, OrdType.market⟩])
        | none => (TradeOutcome.failed, st, [⟨OrderSide.buy, position_size, OrdType.market⟩])

/-- Embedding of `TradingEngine._execute_sell_signal` (mirror of the buy path). -/
def execute_sell_signal (env : ExchangeEnv) (st : EngineState)
    (pos : Option Position) (position_size : ℚ) (reversal_needed : Bool) :
    TradeOutcome × EngineState × List OrderReq :=
  if reversal_needed && pos.isSome then
    match env.close_result with
    | none => (TradeOutcome.failed, st, [])
    | some _ =>
        match env.place_result with
        | some oid =>
            (TradeOutcome.success oid TradeAction.reversal,
             record_trade st TrSignal.SELL position_size OrdType.market TradeAction.reversal,
             [⟨OrderSide.sell, position_size, OrdType.market⟩])
        | none => (TradeOutcome.failed, st, [⟨OrderSide.sell, position_size, OrdType.market⟩])
  else
    match pos with
    | some p =>
        if p.side = Side.short then
          match env.place_result with
          | some oid =>
              (TradeOutcome.success oid TradeAction.add,
               record_trade st TrSignal.SELL position_size OrdType.market TradeAction.add,
               [⟨OrderSide.sell, position_size, OrdType.market⟩])
          | none => (TradeOutcome.failed, st, [⟨OrderSide.sell, position_size, OrdType.market⟩])
        else
          (TradeOutcome.ignored, st, [])
    | none =>
        match env.place_result with
        | some oid =>
            (TradeOutcome.success oid TradeAction.openNew,
             record_trade st TrSignal.SELL position_size OrdType.market TradeAction.openNew,
             [⟨OrderSide.sell, position_size, OrdType.market⟩])
        | none => (TradeOutcome.failed, st, [⟨OrderSide.sell, position_size, OrdType.market⟩])

/-- Embedding of `TradingEngine.execute_intelligent_trade`, one trading cycle:
read the position, append the signal to the signal history, early-return on
HOLD, else decide reversal, size the order and run the buy/sell path.  The
`_save_history` call writes files and does not change in-memory state, so it
has no counterpart here. -/
def execute_intelligent_trade (cfg : TradeConfig) (env : ExchangeEnv)
    (st : EngineState) (signal_data : SignalData) :
    TradeOutcome × EngineState × List OrderReq :=
  let current_position := env.position
  let st1 := { st with signal_history := st.signal_history ++ [signal_data] }
  if signal_data.signal = TrSignal.HOLD then
    (TradeOutcome.hold, st1, [])
  else
    let reversal_needed := check_signal_reversal cfg signal_data current_position
    let position_size := calculate_position_size cfg env.equity env.price signal_data current_position
    if position_size ≤ 0 then
      (TradeOutcome.failed, st1, [])
    else
      match signal_data.signal with
      | TrSignal.BUY => execute_buy_signal env st1 current_position position_size reversal_needed
      | TrSignal.SELL => execute_sell_signal env st1 current_position position_size reversal_needed
      | TrSignal.HOLD => (TradeOutcome.failed, st1, [])

/-- Embedding of `retry_function` (src/utils/helpers.py).  The wrapped call is
an oracle `f : Nat → Option α`: `f i` is attempt `i`'s outcome, `none` for a
raised exception.  `retry_function f i r` runs attempts `i, i+1, ...` with `r`
attempts left; it returns `some a` when an attempt succeeds and `none` when
the last attempt raises (the source re-raises) or when `max_retries = 0`
(the loop body never runs and the source returns `None`). -/
def retry_function (f : Nat → Option α) : Nat → Nat → Option α
  | _, 0 => none
  | i, r + 1 =>
      match f i with
      | some a => some a
      | none => if r = 0 then none else retry_function f (i + 1) r

/-- How many times `retry_function f i r` invokes the wrapped call. -/
def retry_calls (f : Nat → Option α) : Nat → Nat → Nat
  | _, 0 => 0
  | i, r + 1 =>
      match f i with
      | some _ => 1
      | none => if r = 0 then 1 else 1 + retry_calls f (i + 1) r

/-- One element of the `data` array an order-placement request returns
(`result[0].get('ordId')`: the field may be absent). -/
structure OrderData where
  ordId : Option Nat
  deriving DecidableEq

/-- Python-level exception escaping a client method. -/
inductive PyError
  | valueError
  deriving DecidableEq

/-- Embedding of `OKXClient.place_order` together with the number of signed
HTTP requests it issues.  `inst_id_set` is whether `set_trading_symbol` ran;
`oracle i` is what the `i`-th `_request('POST', '/api/v5/trade/order', ...)`
attempt does (`none` = raises).  The source wraps the request in
`retry_function(..., max_retries=3, delay=2)`; any exception escaping the
retry is caught and turned into a `None` return, as is an empty `data`
array, and otherwise `result[0].get('ordId')` is returned. -/
def place_order (inst_id_set : Bool) (size : ℚ)
    (oracle : Nat → Option (List OrderData)) : Except PyError (Option Nat) × Nat :=
  if inst_id_set = false then (Except.error PyError.valueError, 0)
  else if size ≤ 0 then (Except.error PyError.valueError, 0)
  else
    (match retry_function oracle 0 3 with
     | none => Except.ok none
     | some [] => Except.ok none
     | some (d :: _) => Except.ok d.ordId,
     retry_calls oracle 0 3)

/-- One element of the ticker `data` array; `last` is the parsed
`ticker[0].get('last', 0)` value (`none` when the field is absent). -/
structure Ticker where
  last : Option ℚ
  deriving DecidableEq

/-- Embedding of `OKXClient.get_market_price`.  Raises `ValueError` when no
trading symbol is set; otherwise the retried ticker request is run inside a
`try` whose `except` returns `0`, an empty `data` array also yields `0`, and
a nonempty one yields `float(ticker[0].get('last', 0))`. -/
def get_market_price (inst_id_set : Bool)
    (oracle : Nat → Option (List Ticker)) : Except PyError ℚ :=
  if inst_id_set = false then Except.error PyError.valueError
  else
    match retry_function oracle 0 3 with
    | none => Except.ok 0
    | some [] => Except.ok 0
    | some (t :: _) => Except.ok (t.last.getD 0)

/-- The closing side of `OKXClient.close_position`:
`'sell' if position['side'] == 'long' else 'buy'`. -/
def opposite_side (s : Side) : OrderSide :=
  if s = Side.long then OrderSide.sell else OrderSide.buy

/-- The requested close size before clamping:
`size if size else position['size']` (Python truthiness: a passed size of
`None` or `0` falls back to the full position size). -/
def requested_close_size (pos_size : ℚ) : Option ℚ → ℚ
  | some s => if s = 0 then pos_size else s
  | none => pos_size

/-- Embedding of `OKXClient.close_position`.  `pos` is what the inner
`self.get_position()` returns, `place_outcome` what the inner
`self.place_order(...)` returns when it is reached with a valid size.
The result pairs the returned value with the list of order requests handed
to `place_order`; `place_order` itself raises `ValueError` when no symbol is
set or the size is not positive, and that exception escapes `close_position`
(no order request is issued then). -/
def close_position (inst_id_set : Bool) (pos : Option Position)
    (place_outcome : Option Nat) (size : Option ℚ) :
    Except PyError (Option Nat × List OrderReq) :=
  match pos with
  | none => Except.ok (none, [])
  | some p =>
      if p.size = 0 then Except.ok (none, [])
      else
        let side := opposite_side p.side
        let close_size := requested_close_size p.size size
        let close_size' := if p.size < close_size then p.size else close_size
        if inst_id_set = false then Except.error PyError.valueError
        else if close_size' ≤ 0 then Except.error PyError.valueError
        else Except.ok (place_outcome, [⟨side, close_size', OrdType.market⟩])

/-- Rank of a confidence label along the order LOW ≤ MEDIUM ≤ HIGH (an unknown
label behaves exactly like MEDIUM everywhere and gets the same rank). -/
def confidence_rank : Confidence → ℕ
  | Confidence.LOW => 0
  | Confidence.MEDIUM => 1
  | Confidence.OTHER => 1
  | Confidence.HIGH => 2

/-- A rationale containing none of the scanned keywords. -/
def noKw : Reason := ⟨false, false, false, false, false, false, false, false⟩

/-- A sample configuration: risk 1%, leverage 1, order sizes in [1, 100],
position cap 1000, stop at -10%, target +5%. -/
def exCfg : TradeConfig := ⟨1, 1, 1, 100, 1000, 10, 5⟩

/-- A sample BUY signal with LOW confidence and no keywords. -/
def exSigLow : SignalData := ⟨TrSignal.BUY, Confidence.LOW, noKw⟩

/-- A sample BUY signal with HIGH confidence and no keywords. -/
def exSigHigh : SignalData := ⟨TrSignal.BUY, Confidence.HIGH, noKw⟩

/-- A sample trade record. -/
def exRecord : TradeRecord := ⟨TrSignal.BUY, 1, OrdType.market, TradeAction.openNew⟩

/-- An order-request oracle whose first attempt raises and whose second
attempt succeeds with order id 42. -/
def exRetryOracle : Nat → Option (List OrderData) :=
  fun i => if i = 0 then none else some [⟨some 42⟩]

/-- A ticker oracle whose every attempt returns an empty `data` array. -/
def exEmptyTickerOracle : Nat → Option (List Ticker) :=
  fun _ => some []

/-- A ticker oracle whose every attempt raises. -/
def exFailTickerOracle : Nat → Option (List Ticker) :=
  fun _ => none

/-! Helper lemmas about the rounding function. -/

theorem le_roundHalfEven (x : ℚ) : ⌊x⌋ ≤ roundHalfEven x := by
  unfold roundHalfEven
  split_ifs <;> omega

theorem roundHalfEven_le_floor_add_one (x : ℚ) : roundHalfEven x ≤ ⌊x⌋ + 1 := by
  unfold roundHalfEven
  split_ifs <;> omega

theorem roundHalfEven_intCast (n : ℤ) : roundHalfEven (n : ℚ) = n := by
  unfold roundHalfEven
  rw [Int.fract_intCast, Int.floor_intCast]
  norm_num

theorem roundHalfEven_mono {x y : ℚ} (h : x ≤ y) : roundHalfEven x ≤ roundHalfEven y := by
  rcases lt_or_eq_of_le (Int.floor_mono h) with hf | hf
  · calc roundHalfEven x ≤ ⌊x⌋ + 1 := roundHalfEven_le_floor_add_one x
      _ ≤ ⌊y⌋ := by omega
      _ ≤ roundHalfEven y := le_roundHalfEven y
  · have hfr : Int.fract x ≤ Int.fract y := by
      unfold Int.fract
      rw [hf]
      linarith
    unfold roundHalfEven
    split_ifs <;> first | omega | (exfalso; linarith)

theorem roundHalfEven_le_of_le_int {x : ℚ} {k : ℤ} (h : x ≤ (k : ℚ)) :
    roundHalfEven x ≤ k := by
  have hfl : ⌊x⌋ ≤ k := by
    have := Int.floor_mono h
    rwa [Int.floor_intCast] at this
  by_cases heq : ⌊x⌋ = k
  · have hx : x = (k : ℚ) := le_antisymm h (by rw [← heq]; exact Int.floor_le x)
    rw [hx, roundHalfEven_intCast]
  · have : ⌊x⌋ + 1 ≤ k := by omega
    exact le_trans (roundHalfEven_le_floor_add_one x) this

theorem round4_mono {x y : ℚ} (h : x ≤ y) : round4 x ≤ round4 y := by
  unfold round4
  have h1 : roundHalfEven (x * 10000) ≤ roundHalfEven (y * 10000) :=
    roundHalfEven_mono (by linarith)
  have h2 : (roundHalfEven (x * 10000) : ℚ) ≤ (roundHalfEven (y * 10000) : ℚ) := by
    exact_mod_cast h1
  linarith

theorem round4_le_of_le {x : ℚ} {k : ℤ} (h : x ≤ (k : ℚ) / 10000) :
    round4 x ≤ (k : ℚ) / 10000 := by
  unfold round4
  have h1 : x * 10000 ≤ (k : ℚ) := by linarith
  have h2 : (roundHalfEven (x * 10000) : ℚ) ≤ (k : ℚ) := by
    exact_mod_cast roundHalfEven_le_of_le_int h1
  linarith

theorem round4_eq_of_mul_eq_int {x : ℚ} {n : ℤ} (h : x * 10000 = (n : ℚ)) :
    round4 x = (n : ℚ) / 10000 := by
  unfold round4
  rw [h, roundHalfEven_intCast]

/-- C4: whenever equity ≤ 0 or the market price ≤ 0, the Position Sizer fails
closed and returns 0 without computing an order size. -/
theorem C4_sizer_fails_closed (cfg : TradeConfig) (equity price : ℚ)
    (sig : SignalData) (pos : Option Position) (h : equity ≤ 0 ∨ price ≤ 0) :
    calculate_position_size cfg equity price sig pos = 0 := by
  unfold calculate_position_size
  rcases h with h | h
  · rw [if_pos h]
  · by_cases he : equity ≤ 0
    · rw [if_pos he]
    · rw [if_neg he, if_pos h]

/-- C4 witness: the sizer returns 0 at equity = -1, price = 5. -/
theorem C4_sizer_fails_closed_witness :
    calculate_position_size exCfg (-1) 5 exSigHigh none = 0 :=
  C4_sizer_fails_closed exCfg (-1) 5 exSigHigh none (Or.inl (by norm_num))

/-- C5: for an opposite-direction signal on a live position whose loss
percentage is below `-max_loss_percent`, the Reversal Policy returns true,
whatever the confidence and rationale.  `hden` keeps the claim on the domain
where the source's `pnl_percent` quotient is defined (Python would raise
`ZeroDivisionError` otherwise). -/
theorem C5_reversal_on_deep_loss (cfg : TradeConfig) (sig : SignalData) (p : Position)
    (hsz : ¬ p.size = 0)
    (hden : ¬ p.size * p.entry_price = 0)
    (hopp : (p.side = Side.long ∧ sig.signal = TrSignal.SELL) ∨
            (p.side = Side.short ∧ sig.signal = TrSignal.BUY))
    (hpnl : p.unrealized_pnl / (p.size * p.entry_price) * 100 < -cfg.max_loss_percent) :
    check_signal_reversal cfg sig (some p) = true := by
  simp only [check_signal_reversal]
  rw [if_neg hsz, if_pos hopp, if_pos hpnl]

/-- C5 witness: long 1 @ 100 with -20 USDT unrealized (pnl −20%), SELL at LOW
confidence, stop threshold 10% — the policy reverses. -/
theorem C5_reversal_on_deep_loss_witness :
    check_signal_reversal exCfg ⟨TrSignal.SELL, Confidence.LOW, noKw⟩
      (some ⟨Side.long, 1, 100, -20⟩) = true :=
  C5_reversal_on_deep_loss exCfg ⟨TrSignal.SELL, Confidence.LOW, noKw⟩
    ⟨Side.long, 1, 100, -20⟩ (by norm_num) (by norm_num) (Or.inl ⟨rfl, rfl⟩)
    (by norm_num [exCfg])

/-- C6: the Reversal Policy returns false when there is no position, when the
position size is 0, and when the signal direction matches the position
direction, for every confidence and rationale. -/
theorem C6_no_reversal_same_side (cfg : TradeConfig) (sig : SignalData)
    (pos : Option Position)
    (h : pos = none ∨ ∃ p, pos = some p ∧
          (p.size = 0 ∨ (p.side = Side.long ∧ sig.signal = TrSignal.BUY) ∨
           (p.side = Side.short ∧ sig.signal = TrSignal.SELL))) :
    check_signal_reversal cfg sig pos = false := by
  rcases h with rfl | ⟨p, rfl, hp⟩
  · rfl
  · simp only [check_signal_reversal]
    rcases hp with hz | hm
    · rw [if_pos hz]
    · have hopp : ¬ ((p.side = Side.long ∧ sig.signal = TrSignal.SELL) ∨
          (p.side = Side.short ∧ sig.signal = TrSignal.BUY)) := by
        rcases hm with ⟨h1, h2⟩ | ⟨h1, h2⟩ <;> rintro (⟨g1, g2⟩ | ⟨g1, g2⟩) <;> simp_all
      by_cases hz : p.size = 0
      · rw [if_pos hz]
      · rw [if_neg hz, if_neg hopp]

/-- C6 witness: a long position with a BUY signal is never reversed. -/
theorem C6_no_reversal_same_side_witness :
    check_signal_reversal exCfg exSigHigh (some ⟨Side.long, 2, 100, -50⟩) = false :=
  C6_no_reversal_same_side exCfg exSigHigh (some ⟨Side.long, 2, 100, -50⟩)
    (Or.inr ⟨⟨Side.long, 2, 100, -50⟩, rfl, Or.inr (Or.inl ⟨rfl, rfl⟩)⟩)

/-- C8: a cycle on a HOLD signal terminates with outcome `hold`, places no
order, leaves the trade ledger unchanged and mutates history only by
appending the signal to the signal history — from every starting state. -/
theorem C8_hold_cycle_frame (cfg : TradeConfig) (env : ExchangeEnv)
    (st : EngineState) (sig : SignalData) (h : sig.signal = TrSignal.HOLD) :
    execute_intelligent_trade cfg env st sig =
      (TradeOutcome.hold, { st with signal_history := st.signal_history ++ [sig] }, []) := by
  simp [execute_intelligent_trade, h]

/-- C8 witness: a concrete HOLD cycle from a nonempty ledger. -/
theorem C8_hold_cycle_frame_witness :
    execute_intelligent_trade exCfg ⟨none, 50, 100, none, some 7⟩
      ⟨[exRecord], []⟩ ⟨TrSignal.HOLD, Confidence.LOW, noKw⟩ =
      (TradeOutcome.hold, ⟨[exRecord], [⟨TrSignal.HOLD, Confidence.LOW, noKw⟩]⟩, []) :=
  C8_hold_cycle_frame exCfg ⟨none, 50, 100, none, some 7⟩
    ⟨[exRecord], []⟩ ⟨TrSignal.HOLD, Confidence.LOW, noKw⟩ rfl

/-- C9: appending a trade record to a ledger that already holds 1000 entries
leaves exactly 1000 entries: the oldest entry is dropped and the relative
order of the remaining entries is preserved (FIFO eviction). -/
theorem C9_ledger_eviction (st : EngineState) (side : TrSignal) (size : ℚ)
    (ot : OrdType) (ac : TradeAction) (h : st.trade_history.length = 1000) :
    (record_trade st side size ot ac).trade_history =
      st.trade_history.drop 1 ++ [⟨side, size, ot, ac⟩] ∧
    (record_trade st side size ot ac).trade_history.length = 1000 := by
  unfold record_trade
  have hlen : (st.trade_history ++ [(⟨side, size, ot, ac⟩ : TradeRecord)]).length = 1001 := by
    simp [h]
  constructor
  · simp only [hlen, if_pos (show (1000 : ℕ) < 1001 by norm_num)]
    rw [show (1001 - 1000 : ℕ) = 1 from rfl]
    rw [List.drop_append_of_le_length (by omega)]
  · simp only [hlen, if_pos (show (1000 : ℕ) < 1001 by norm_num)]
    rw [List.length_drop, hlen]

/-- C9 witness: FIFO eviction on a concrete ledger of 1000 identical records. -/
theorem C9_ledger_eviction_witness :
    (record_trade ⟨List.replicate 1000 exRecord, []⟩ TrSignal.SELL 2 OrdType.market
        TradeAction.add).trade_history =
      (List.replicate 1000 exRecord).drop 1 ++ [⟨TrSignal.SELL, 2, OrdType.market, TradeAction.add⟩] ∧
    (record_trade ⟨List.replicate 1000 exRecord, []⟩ TrSignal.SELL 2 OrdType.market
        TradeAction.add).trade_history.length = 1000 :=
  C9_ledger_eviction ⟨List.replicate 1000 exRecord, []⟩ TrSignal.SELL 2 OrdType.market
    TradeAction.add (List.length_replicate 1000 exRecord)

/-! Helper lemmas about the retry combinator's call count. -/

theorem retry_calls_le (f : Nat → Option α) : ∀ r i, retry_calls f i r ≤ r
  | 0, _ => Nat.le_refl 0
  | r + 1, i => by
      have ih := retry_calls_le f r (i + 1)
      cases hf : f i <;> simp [retry_calls, hf] <;> first | omega | (split <;> omega)

theorem one_le_retry_calls (f : Nat → Option α) (i r : Nat) (h : 0 < r) :
    1 ≤ retry_calls f i r := by
  cases r with
  | zero => omega
  | succ n =>
      cases hf : f i <;> simp [retry_calls, hf] <;> first | omega | (split <;> omega)

/-- C1 counterexample: with a symbol set and a positive size, an oracle whose
first order-placement attempt raises makes `place_order` issue the signed
request twice in one call — it is not issued exactly once. -/
theorem C1_counterexample_request_reissued :
    (place_order true 1 exRetryOracle).2 = 2 ∧
    ¬ (place_order true 1 exRetryOracle).2 = 1 := by
  decide

/-- C1 (amended): `place_order` wraps its signed order request in the same
automatic retry combinator as the read-only calls (`max_retries = 3`): per
call the request is issued exactly `retry_calls` times — at least once and
at most three times. -/
theorem C1_place_order_is_retried (oracle : Nat → Option (List OrderData))
    (sz : ℚ) (h : ¬ sz ≤ 0) :
    (place_order true sz oracle).2 = retry_calls oracle 0 3 ∧
    1 ≤ (place_order true sz oracle).2 ∧ (place_order true sz oracle).2 ≤ 3 := by
  have hp : (place_order true sz oracle).2 = retry_calls oracle 0 3 := by
    simp [place_order, h]
  refine ⟨hp, ?_, ?_⟩
  · rw [hp]
    exact one_le_retry_calls oracle 0 3 (by norm_num)
  · rw [hp]
    exact retry_calls_le oracle 3 0

/-- C1 witness: with the fail-once oracle and size 1 the bounds hold (two
requests issued). -/
theorem C1_place_order_is_retried_witness :
    (place_order true 1 exRetryOracle).2 = retry_calls exRetryOracle 0 3 ∧
    1 ≤ (place_order true 1 exRetryOracle).2 ∧ (place_order true 1 exRetryOracle).2 ≤ 3 :=
  C1_place_order_is_retried exRetryOracle 1 (by norm_num)

/-- C3 counterexample: with no trading symbol set, `get_market_price` raises
`ValueError` instead of returning 0 — it is not exception-free on every call. -/
theorem C3_counterexample_raises :
    get_market_price false exEmptyTickerOracle = Except.error PyError.valueError := rfl

/-- C3 (amended): once a trading symbol is set, `get_market_price` never
raises: every outcome is an `ok` value, a failing or empty retried request
yields 0, and a nonempty ticker yields its (parsed) last price. -/
theorem C3_price_never_raises_with_symbol (oracle : Nat → Option (List Ticker)) :
    (∃ q : ℚ, get_market_price true oracle = Except.ok q) ∧
    (retry_function oracle 0 3 = none → get_market_price true oracle = Except.ok 0) ∧
    (retry_function oracle 0 3 = some [] → get_market_price true oracle = Except.ok 0) ∧
    (∀ t ts, retry_function oracle 0 3 = some (t :: ts) →
        get_market_price true oracle = Except.ok (t.last.getD 0)) := by
  refine ⟨?_, ?_, ?_, ?_⟩
  · rcases hr : retry_function oracle 0 3 with _ | ls
    · exact ⟨0, by simp [get_market_price, hr]⟩
    · cases ls with
      | nil => exact ⟨0, by simp [get_market_price, hr]⟩
      | cons t ts => exact ⟨t.last.getD 0, by simp [get_market_price, hr]⟩
  · intro h
    simp [get_market_price, h]
  · intro h
    simp [get_market_price, h]
  · intro t ts h
    simp [get_market_price, h]

/-- C10: `close_position` returns `None` and submits no order when there is no
position or its size is 0; every order it does submit is for at most the held
position size (an oversized request is clamped to the position size) and on
the side opposite to the position. -/
theorem C10_close_position_clamped (inst_id_set : Bool) (p : Position)
    (place_outcome : Option Nat) (size : Option ℚ) :
    close_position inst_id_set none place_outcome size = Except.ok (none, []) ∧
    (p.size = 0 → close_position inst_id_set (some p) place_outcome size = Except.ok (none, [])) ∧
    (∀ v, close_position inst_id_set (some p) place_outcome size = Except.ok v →
        ∀ r ∈ v.2, r.size ≤ p.size ∧ r.side = opposite_side p.side) ∧
    (∀ s, size = some s → p.size < s → 0 < p.size → inst_id_set = true →
        close_position inst_id_set (some p) place_outcome size =
          Except.ok (place_outcome, [⟨opposite_side p.side, p.size, OrdType.market⟩])) := by
  refine ⟨rfl, ?_, ?_, ?_⟩
  · intro h
    simp only [close_position]
    rw [if_pos h]
  · intro v hv r hr
    by_cases hz : p.size = 0
    · simp only [close_position, if_pos hz] at hv
      cases hv
      simp at hr
    · simp only [close_position, if_neg hz] at hv
      by_cases hi : inst_id_set = false
      · rw [if_pos hi] at hv
        cases hv
      · rw [if_neg hi] at hv
        by_cases hclamp : p.size < requested_close_size p.size size
        · rw [if_pos hclamp] at hv
          by_cases hle : p.size ≤ 0
          · rw [if_pos hle] at hv
            cases hv
          · rw [if_neg hle] at hv
            cases hv
            simp only [List.mem_singleton] at hr
            subst hr
            exact ⟨le_refl _, rfl⟩
        · rw [if_neg hclamp] at hv
          by_cases hle : requested_close_size p.size size ≤ 0
          · rw [if_pos hle] at hv
            cases hv
          · rw [if_neg hle] at hv
            cases hv
            simp only [List.mem_singleton] at hr
            subst hr
            exact ⟨le_of_not_lt hclamp, rfl⟩
  · intro s hs hlt hp0 hinst
    subst hs
    subst hinst
    have hz : ¬ p.size = 0 := by linarith
    have hs0 : ¬ s = 0 := by linarith
    have hcs : requested_close_size p.size (some s) = s := by
      simp [requested_close_size, hs0]
    simp only [close_position, if_neg hz, hcs]
    rw [if_pos hlt, if_neg (by simp : ¬ (true = false)),
      if_neg (by linarith : ¬ p.size ≤ 0)]

/-! Helper lemmas for the sizing clamps and the confidence order. -/

theorem clamp_lo_mono {a b m : ℚ} (h : a ≤ b) :
    (if a < m then m else a) ≤ (if b < m then m else b) := by
  split_ifs <;> linarith

theorem clamp_lo_nonneg {a m : ℚ} (h : 0 ≤ a) :
    0 ≤ (if a < m then m else a) := by
  split_ifs <;> linarith

theorem clamp_hi_mono {a b M : ℚ} (h : a ≤ b) :
    (if M < a then M else a) ≤ (if M < b then M else b) := by
  split_ifs <;> linarith

theorem confidence_multiplier_nonneg (c : Confidence) : 0 ≤ confidence_multiplier c := by
  cases c <;> norm_num [confidence_multiplier]

theorem confidence_multiplier_mono {c1 c2 : Confidence}
    (h : confidence_rank c1 ≤ confidence_rank c2) :
    confidence_multiplier c1 ≤ confidence_multiplier c2 := by
  cases c1 <;> cases c2 <;>
    first
      | exact absurd h (by decide)
      | norm_num [confidence_multiplier]

theorem base_strength_nonneg (c : Confidence) : 0 ≤ base_strength c := by
  cases c <;> norm_num [base_strength]

theorem base_strength_mono {c1 c2 : Confidence}
    (h : confidence_rank c1 ≤ confidence_rank c2) :
    base_strength c1 ≤ base_strength c2 := by
  cases c1 <;> cases c2 <;>
    first
      | exact absurd h (by decide)
      | norm_num [base_strength]

theorem calculate_trend_strength_mono (s : TrSignal) (r : Reason) {c1 c2 : Confidence}
    (h : confidence_rank c1 ≤ confidence_rank c2) :
    calculate_trend_strength ⟨s, c1, r⟩ ≤ calculate_trend_strength ⟨s, c2, r⟩ := by
  have hbs := base_strength_mono h
  simp only [calculate_trend_strength]
  split_ifs <;> linarith

theorem calculate_trend_strength_nonneg (sig : SignalData) :
    0 ≤ calculate_trend_strength sig := by
  have hbs := base_strength_nonneg sig.confidence
  simp only [calculate_trend_strength]
  split_ifs <;> norm_num <;> linarith

theorem sizer_unclamped_mono (cfg : TradeConfig) (equity price : ℚ) (s : TrSignal)
    (r : Reason) {c1 c2 : Confidence} (he : 0 < equity) (hp : 0 < price)
    (hrisk : 0 ≤ cfg.risk_percent) (hlev : 0 ≤ cfg.leverage)
    (hc : confidence_rank c1 ≤ confidence_rank c2) :
    sizer_unclamped cfg equity price ⟨s, c1, r⟩ ≤ sizer_unclamped cfg equity price ⟨s, c2, r⟩ := by
  have hbase : 0 ≤ equity * cfg.risk_percent / 100 * cfg.leverage / price := by positivity
  have hcm := confidence_multiplier_mono hc
  have hcm0 := confidence_multiplier_nonneg c1
  have hts : calculate_trend_strength ⟨s, c1, r⟩ ≤ calculate_trend_strength ⟨s, c2, r⟩ :=
    calculate_trend_strength_mono s r hc
  have hts0 : 0 ≤ calculate_trend_strength ⟨s, c1, r⟩ := calculate_trend_strength_nonneg _
  simp only [sizer_unclamped]
  apply round4_mono
  apply clamp_hi_mono
  have h1 : equity * cfg.risk_percent / 100 * cfg.leverage / price * confidence_multiplier c1 ≤
      equity * cfg.risk_percent / 100 * cfg.leverage / price * confidence_multiplier c2 :=
    mul_le_mul_of_nonneg_left hcm hbase
  have hA := clamp_lo_mono (m := cfg.min_order_size) h1
  have hA0 : 0 ≤ (if equity * cfg.risk_percent / 100 * cfg.leverage / price * confidence_multiplier c1 <
      cfg.min_order_size then cfg.min_order_size
      else equity * cfg.risk_percent / 100 * cfg.leverage / price * confidence_multiplier c1) :=
    clamp_lo_nonneg (mul_nonneg hbase hcm0)
  have hM : (4:ℚ)/5 + calculate_trend_strength ⟨s, c1, r⟩ * (2/5) ≤
      4/5 + calculate_trend_strength ⟨s, c2, r⟩ * (2/5) := by linarith
  have hM0 : 0 ≤ (4:ℚ)/5 + calculate_trend_strength ⟨s, c1, r⟩ * (2/5) := by linarith
  exact mul_le_mul hA hM hM0 (le_trans hA0 hA)

/-- C7: with equity, price, config, rationale and position held fixed and a
valid configuration (non-negative risk percentage and leverage), the computed
size is monotonically non-decreasing in confidence along LOW ≤ MEDIUM ≤ HIGH. -/
theorem C7_size_mono_in_confidence (cfg : TradeConfig) (equity price : ℚ)
    (s : TrSignal) (r : Reason) (pos : Option Position) (c1 c2 : Confidence)
    (hrisk : 0 ≤ cfg.risk_percent) (hlev : 0 ≤ cfg.leverage)
    (hc : confidence_rank c1 ≤ confidence_rank c2) :
    calculate_position_size cfg equity price ⟨s, c1, r⟩ pos ≤
      calculate_position_size cfg equity price ⟨s, c2, r⟩ pos := by
  by_cases he : equity ≤ 0
  · simp [calculate_position_size, he]
  by_cases hp : price ≤ 0
  · simp [calculate_position_size, he, hp]
  have hF := sizer_unclamped_mono cfg equity price s r
    (lt_of_not_le he) (lt_of_not_le hp) hrisk hlev hc
  simp only [calculate_position_size, if_neg he, if_neg hp]
  rcases pos with _ | p
  · simp only [position_adjust]
    exact hF
  · simp only [position_adjust]
    split_ifs <;> linarith [hF]

/-- C7 witness: at the sample configuration, the LOW-confidence size is at
most the HIGH-confidence size. -/
theorem C7_size_mono_in_confidence_witness :
    calculate_position_size exCfg 1 100 ⟨TrSignal.BUY, Confidence.LOW, noKw⟩ none ≤
      calculate_position_size exCfg 1 100 ⟨TrSignal.BUY, Confidence.HIGH, noKw⟩ none :=
  C7_size_mono_in_confidence exCfg 1 100 TrSignal.BUY noKw none Confidence.LOW Confidence.HIGH
    (by norm_num [exCfg]) (by norm_num [exCfg]) (by decide)

/-- C2 counterexample: at the sample configuration with LOW confidence and no
keywords, the sizer returns 0.92 — strictly positive yet strictly below
`min_order_size` = 1, because the trend multiplier (0.92 here) is applied
after the lower clamp. -/
theorem C2_counterexample_below_min :
    0 < calculate_position_size exCfg 1 100 exSigLow none ∧
    calculate_position_size exCfg 1 100 exSigLow none < exCfg.min_order_size := by
  have e2 : round4 (23/25 : ℚ) = 23/25 := by
    have h : round4 (23/25 : ℚ) = ((9200 : ℤ) : ℚ) / 10000 :=
      round4_eq_of_mul_eq_int (by norm_num)
    rw [h]
    norm_num
  have e1 : calculate_position_size exCfg 1 100 exSigLow none = 23/25 := by
    norm_num [calculate_position_size, position_adjust, sizer_unclamped,
      calculate_trend_strength, confidence_multiplier, base_strength, strength_kw,
      reversal_kw, exCfg, exSigLow, noKw, e2]
  rw [e1]
  constructor
  · norm_num
  · norm_num [exCfg]

/-- C2 (amended): when `max_order_size` is a whole multiple of 0.0001 (the
sizer rounds to 4 decimals), every strictly positive size the sizer returns
is at most `max_order_size`; the lower bound of the original claim does not
hold, as the counterexample shows. -/
theorem C2_amended_size_le_max (cfg : TradeConfig) (equity price : ℚ)
    (sig : SignalData) (pos : Option Position) (k : ℤ)
    (hmax : cfg.max_order_size = (k : ℚ) / 10000)
    (hpos : 0 < calculate_position_size cfg equity price sig pos) :
    calculate_position_size cfg equity price sig pos ≤ cfg.max_order_size := by
  by_cases he : equity ≤ 0
  · simp [calculate_position_size, he] at hpos
  by_cases hp : price ≤ 0
  · simp [calculate_position_size, he, hp] at hpos
  have hF : sizer_unclamped cfg equity price sig ≤ cfg.max_order_size := by
    simp only [sizer_unclamped]
    rw [hmax]
    apply round4_le_of_le
    rw [← hmax]
    split_ifs <;> first | exact le_refl _ | linarith
  simp only [calculate_position_size, if_neg he, if_neg hp] at hpos ⊢
  rcases pos with _ | p
  · simp only [position_adjust] at hpos ⊢
    exact hF
  · simp only [position_adjust] at hpos ⊢
    split_ifs at hpos ⊢ <;> linarith [hF]

/-- C2 witness: at the sample configuration (max 100 = 1000000·0.0001) and
HIGH confidence, the returned size 1.12 is positive and at most the maximum. -/
theorem C2_amended_size_le_max_witness :
    calculate_position_size exCfg 1 100 exSigHigh none ≤ exCfg.max_order_size := by
  have e2 : round4 (28/25 : ℚ) = 28/25 := by
    have h : round4 (28/25 : ℚ) = ((11200 : ℤ) : ℚ) / 10000 :=
      round4_eq_of_mul_eq_int (by norm_num)
    rw [h]
    norm_num
  have e1 : calculate_position_size exCfg 1 100 exSigHigh none = 28/25 := by
    norm_num [calculate_position_size, position_adjust, sizer_unclamped,
      calculate_trend_strength, confidence_multiplier, base_strength, strength_kw,
      reversal_kw, exCfg, exSigHigh, noKw, e2]
  exact C2_amended_size_le_max exCfg 1 100 exSigHigh none 1000000
    (by norm_num [exCfg]) (by rw [e1]; norm_num)
